import Mathlib

/-!
Shallow embedding of the appointment-scheduling backend: the GraphQL
resolver layer (Query/Mutation of `src/unnamed/part_001`), the
Appointment model with its validation hooks
(`src/src/models/appointment.model.js`), and abstract models of the
third-party bcrypt and jsonwebtoken libraries.

Dates are modelled as integers (milliseconds); MongoDB ObjectIds as
natural numbers; the database as in-memory lists of documents.  Each
mutation is a pure function from the database (plus the request
context, the input, the fresh id and the current time) to a result and
the database after the call.
-/

set_option linter.unusedVariables false

namespace Veola

/-- MongoDB ObjectId, modelled as a natural number. -/
abbrev Id := Nat

/-- A JavaScript `Date`, modelled as an integer (milliseconds since epoch). -/
abbrev Time := Int

/-- User role: the `role` field of the User model, `user` or `admin`. -/
inductive Role where
  | user
  | admin
deriving DecidableEq, Repr

/-- Appointment status: the schema enum
`['pending', 'confirmed', 'cancelled', 'completed']`. -/
inductive Status where
  | pending
  | confirmed
  | cancelled
  | completed
deriving DecidableEq, Repr

/-- A persisted User document.  The User model file itself is not part of
the sources; its fields are those read by the resolvers (`_id`, `email`,
`passwordHash`, `name`, `role`, `createdAt`). -/
structure UserDoc where
  _id : Id
  email : String
  passwordHash : String
  name : Option String
  role : Role
  createdAt : Time
deriving DecidableEq, Repr

/-- A persisted Appointment document, after the schema of
`appointment.model.js`. -/
structure AppointmentDoc where
  _id : Id
  title : String
  description : String
  startTime : Time
  endTime : Time
  userId : Id
  status : Status
  createdAt : Time
  updatedAt : Time
deriving DecidableEq, Repr

/-- The database: the two collections. -/
structure DB where
  users : List UserDoc
  appointments : List AppointmentDoc
deriving DecidableEq, Repr

/-- The error taxonomy of the resolvers; each constructor corresponds to one
`throw new Error(...)` message. -/
inductive Err where
  | authenticationRequired
  | notFound
  | accessDenied
  | invalidTimeRange
  | duplicateEmail
  | invalidCredentials
deriving DecidableEq, Repr

/-- The message string each error surfaces with. -/
def Err.message : Err → String
  | .authenticationRequired => "Authentication required"
  | .notFound => "Appointment not found"
  | .accessDenied => "Access denied"
  | .invalidTimeRange => "End time must be after start time"
  | .duplicateEmail => "Email already in use"
  | .invalidCredentials => "Invalid credentials"

/-- Modelled from the library: `bcrypt.hash(password, 10)` produces a salted
hash; the model keeps only the property the code relies on, that
`bcrypt.compare` recognises exactly the hashed password. -/
def bcryptHash (password : String) : String :=
  "bcrypt$10$" ++ password

/-- Modelled from the library: `bcrypt.compare(password, hash)` succeeds
exactly when `hash` was produced from `password`. -/
def bcryptCompare (password hash : String) : Bool :=
  hash == bcryptHash password

/-- A signed JWT, modelled by its payload: `jwt.sign({ sub }, secret, ...)`.
The signature and expiry are not modelled; `sub` is the subject claim. -/
structure Token where
  sub : String
deriving DecidableEq, Repr

/-- Modelled from the library: signing a token with subject claim `sub`. -/
def jwtSign (sub : String) : Token :=
  { sub := sub }

/-- The User DTO produced by `toUserDTO`: exactly the fields
`id, email, name, role, createdAt` (never the password hash). -/
structure UserDTO where
  id : String
  email : String
  name : Option String
  role : Role
  createdAt : Time
deriving DecidableEq, Repr

/-- `toUserDTO(userDoc)` on a non-null document (the null case is kept at the
call sites, which pass `Option`). -/
def toUserDTO (u : UserDoc) : UserDTO :=
  { id := toString u._id
    email := u.email
    name := u.name
    role := u.role
    createdAt := u.createdAt }

/-- The Appointment DTO produced by `toAppointmentDTO`; `Date` fields are
serialised with `toISOString`, modelled as the decimal rendering of the
integer time. -/
structure AppointmentDTO where
  id : String
  title : String
  description : String
  startTime : String
  endTime : String
  userId : String
  status : Status
  createdAt : String
  updatedAt : String
deriving DecidableEq, Repr

/-- `toAppointmentDTO(appointmentDoc)` on a non-null document.  The schema
gives `createdAt`/`updatedAt` defaults, so the null guards of the source are
never taken. -/
def toAppointmentDTO (a : AppointmentDoc) : AppointmentDTO :=
  { id := toString a._id
    title := a.title
    description := a.description
    startTime := toString a.startTime
    endTime := toString a.endTime
    userId := toString a.userId
    status := a.status
    createdAt := toString a.createdAt
    updatedAt := toString a.updatedAt }

/-- Insert into a list sorted by `le` (helper for `sortBy`). -/
def insertBy {α : Type} (le : α → α → Bool) (a : α) : List α → List α
  | [] => [a]
  | b :: l => if le a b then a :: b :: l else b :: insertBy le a l

/-- Insertion sort: models the `.sort({ field: 1 })` / `.sort({ field: -1 })`
clauses of the Mongoose queries (the database guarantees only the ordering by
the key, which any sort by `le` realises). -/
def sortBy {α : Type} (le : α → α → Bool) : List α → List α
  | [] => []
  | a :: l => insertBy le a (sortBy le l)

/-- `User.findOne({ email })`: the first user document with that email. -/
def User.findOne (db : DB) (email : String) : Option UserDoc :=
  db.users.find? (fun u => u.email == email)

/-- `Appointment.findById(id)`: the document with that id. -/
def Appointment.findById (db : DB) (id : Id) : Option AppointmentDoc :=
  db.appointments.find? (fun a => a._id == id)

/-- The `pre('validate')` hook of `AppointmentSchema`: rejects the document
when `endTime <= startTime`. -/
def appointmentPreValidate (a : AppointmentDoc) : Except Err Unit :=
  if a.endTime ≤ a.startTime then .error .invalidTimeRange else .ok ()

/-- `Appointment.create(doc)`: document creation runs the document
middleware — first the `pre('validate')` time-range hook, then the
`pre('save')` hook that sets `updatedAt` to now — and appends the document
to the collection. -/
def Appointment.create (db : DB) (a : AppointmentDoc) (now : Time) :
    Except Err AppointmentDoc × DB :=
  match appointmentPreValidate a with
  | .error e => (.error e, db)
  | .ok _ =>
    let saved := { a with updatedAt := now }
    (.ok saved, { db with appointments := db.appointments ++ [saved] })

/-- The update object assembled by `Mutation.updateAppointment`: each field
present exactly when supplied in the input, plus `updatedAt`. -/
structure UpdateData where
  title : Option String
  description : Option String
  startTime : Option Time
  endTime : Option Time
  status : Option Status
  updatedAt : Time
deriving DecidableEq, Repr

/-- Apply an update object to a document: supplied fields overwrite, the
rest keep their stored values; `userId`, `createdAt` and `_id` are not
part of the update object and stay. -/
def applyUpdate (u : UpdateData) (a : AppointmentDoc) : AppointmentDoc :=
  { a with
    title := u.title.getD a.title
    description := u.description.getD a.description
    startTime := u.startTime.getD a.startTime
    endTime := u.endTime.getD a.endTime
    status := u.status.getD a.status
    updatedAt := u.updatedAt }

/-- `Appointment.findByIdAndUpdate(id, updateData, { new: true,
runValidators: true })`.  This is a query update, so Mongoose runs no
document middleware on it: the `pre('validate')` time-range hook fires only
for `save`/`create`, and `runValidators` runs only the per-path schema
validators (here the status enum, which the `Status` type already
enforces).  The updated document is returned (`new: true`). -/
def Appointment.findByIdAndUpdate (db : DB) (id : Id) (u : UpdateData) :
    Option AppointmentDoc × DB :=
  match db.appointments.find? (fun a => a._id == id) with
  | none => (none, db)
  | some a =>
    let updated := applyUpdate u a
    (some updated,
     { db with
       appointments :=
         db.appointments.map (fun b => if b._id == id then updated else b) })

/-- `Appointment.findByIdAndDelete(id)`: removes the document with that id. -/
def Appointment.findByIdAndDelete (db : DB) (id : Id) : DB :=
  { db with appointments := db.appointments.eraseP (fun a => a._id == id) }

/-- `Query.me`: `user ? toUserDTO(user) : null`. -/
def Query.me (db : DB) (user : Option UserDoc) : Option UserDTO :=
  match user with
  | some u => some (toUserDTO u)
  | none => none

/-- `Query.users`: `User.find({}).sort({ createdAt: -1 })` mapped through
`toUserDTO`.  The resolver takes no context argument: it performs no
authentication check. -/
def Query.users (db : DB) (user : Option UserDoc) : Except Err (List UserDTO) :=
  .ok ((sortBy (fun a b : UserDoc => b.createdAt ≤ a.createdAt) db.users).map toUserDTO)

/-- `Query.appointments`: requires authentication; admins see all, regular
users only documents with their own `userId`; sorted by `startTime`
ascending. -/
def Query.appointments (db : DB) (user : Option UserDoc) :
    Except Err (List AppointmentDTO) :=
  match user with
  | none => .error .authenticationRequired
  | some u =>
    let filter : AppointmentDoc → Bool :=
      if u.role = Role.admin then fun _ => true else fun a => a.userId == u._id
    .ok ((sortBy (fun a b : AppointmentDoc => a.startTime ≤ b.startTime)
            (db.appointments.filter filter)).map toAppointmentDTO)

/-- `Query.appointment(id)`: requires authentication; `NotFound` when the id
is absent; `AccessDenied` unless the caller owns the document or is admin. -/
def Query.appointment (db : DB) (user : Option UserDoc) (id : Id) :
    Except Err AppointmentDTO :=
  match user with
  | none => .error .authenticationRequired
  | some u =>
    match Appointment.findById db id with
    | none => .error .notFound
    | some a =>
      if u.role ≠ Role.admin ∧ a.userId ≠ u._id then .error .accessDenied
      else .ok (toAppointmentDTO a)

/-- `Query.myAppointments`: requires authentication; always filtered to the
caller's id, sorted by `startTime`. -/
def Query.myAppointments (db : DB) (user : Option UserDoc) :
    Except Err (List AppointmentDTO) :=
  match user with
  | none => .error .authenticationRequired
  | some u =>
    .ok ((sortBy (fun a b : AppointmentDoc => a.startTime ≤ b.startTime)
            (db.appointments.filter (fun a => a.userId == u._id))).map toAppointmentDTO)

/-- The payload of `register`/`login`: a signed token and a user DTO. -/
structure AuthPayload where
  token : Token
  user : UserDTO
deriving DecidableEq, Repr

/-- `Mutation.register(email, password, name)`: `DuplicateEmail` when a user
with that email exists; otherwise stores the salted hash and the new user
(role defaults to `user`, per the User model's default, which the sources
only reference) and returns a token whose subject is the new id. -/
def Mutation.register (db : DB) (email password : String) (name : Option String)
    (newId : Id) (now : Time) : Except Err AuthPayload × DB :=
  match User.findOne db email with
  | some _ => (.error .duplicateEmail, db)
  | none =>
    let passwordHash := bcryptHash password
    let user : UserDoc :=
      { _id := newId, email := email, passwordHash := passwordHash
        name := name, role := Role.user, createdAt := now }
    let token := jwtSign (toString user._id)
    (.ok { token := token, user := toUserDTO user },
     { db with users := db.users ++ [user] })

/-- `Mutation.login(email, password)`: `InvalidCredentials` when the email
is unknown or the hash does not match; otherwise a token with the user's id
as subject plus the user DTO. -/
def Mutation.login (db : DB) (email password : String) : Except Err AuthPayload :=
  match User.findOne db email with
  | none => .error .invalidCredentials
  | some user =>
    if bcryptCompare password user.passwordHash then
      .ok { token := jwtSign (toString user._id), user := toUserDTO user }
    else .error .invalidCredentials

/-- The `AppointmentInput` of the schema: `title`/`startTime`/`endTime`
required, `description`/`status` optional. -/
structure AppointmentInput where
  title : String
  description : Option String
  startTime : Time
  endTime : Time
  status : Option Status
deriving DecidableEq, Repr

/-- The `AppointmentUpdateInput` of the schema: every field optional; it has
no `userId` and no `createdAt` field. -/
structure AppointmentUpdateInput where
  title : Option String
  description : Option String
  startTime : Option Time
  endTime : Option Time
  status : Option Status
deriving DecidableEq, Repr

/-- `Mutation.createAppointment(input)`: requires authentication; owner is
the caller; `status || 'pending'`; the description defaults to the schema's
empty string; creation runs the document validation hook. -/
def Mutation.createAppointment (db : DB) (user : Option UserDoc)
    (input : AppointmentInput) (newId : Id) (now : Time) :
    Except Err AppointmentDTO × DB :=
  match user with
  | none => (.error .authenticationRequired, db)
  | some u =>
    let doc : AppointmentDoc :=
      { _id := newId
        title := input.title
        description := input.description.getD ""
        startTime := input.startTime
        endTime := input.endTime
        userId := u._id
        status := input.status.getD Status.pending
        createdAt := now
        updatedAt := now }
    match Appointment.create db doc now with
    | (.error e, db') => (.error e, db')
    | (.ok saved, db') => (.ok (toAppointmentDTO saved), db')

/-- `Mutation.updateAppointment(id, input)`: requires authentication;
`NotFound` when absent; `AccessDenied` unless owner or admin; then builds
the update object from the supplied fields, sets `updatedAt` to now, and
applies it with `findByIdAndUpdate`. -/
def Mutation.updateAppointment (db : DB) (user : Option UserDoc) (id : Id)
    (input : AppointmentUpdateInput) (now : Time) :
    Except Err (Option AppointmentDTO) × DB :=
  match user with
  | none => (.error .authenticationRequired, db)
  | some u =>
    match Appointment.findById db id with
    | none => (.error .notFound, db)
    | some a =>
      if u.role ≠ Role.admin ∧ a.userId ≠ u._id then (.error .accessDenied, db)
      else
        let updateData : UpdateData :=
          { title := input.title
            description := input.description
            startTime := input.startTime
            endTime := input.endTime
            status := input.status
            updatedAt := now }
        match Appointment.findByIdAndUpdate db id updateData with
        | (updated, db') => (.ok (updated.map toAppointmentDTO), db')

/-- `Mutation.deleteAppointment(id)`: requires authentication; `NotFound`
when absent; `AccessDenied` unless owner or admin; then deletes and returns
`true`. -/
def Mutation.deleteAppointment (db : DB) (user : Option UserDoc) (id : Id) :
    Except Err Bool × DB :=
  match user with
  | none => (.error .authenticationRequired, db)
  | some u =>
    match Appointment.findById db id with
    | none => (.error .notFound, db)
    | some a =>
      if u.role ≠ Role.admin ∧ a.userId ≠ u._id then (.error .accessDenied, db)
      else (.ok true, Appointment.findByIdAndDelete db id)

/-! Concrete fixtures used by witnesses and counterexamples. -/

/-- A regular user. -/
def alice : UserDoc :=
  { _id := 1, email := "alice@example.com"
    passwordHash := bcryptHash "password123"
    name := some "Alice", role := Role.user, createdAt := 100 }

/-- A second regular user. -/
def bob : UserDoc :=
  { _id := 2, email := "bob@example.com"
    passwordHash := bcryptHash "hunter2"
    name := some "Bob", role := Role.user, createdAt := 200 }

/-- An admin. -/
def adminUser : UserDoc :=
  { _id := 3, email := "admin@example.com"
    passwordHash := bcryptHash "admin123"
    name := some "Admin", role := Role.admin, createdAt := 50 }

/-- An appointment owned by alice. -/
def apptA : AppointmentDoc :=
  { _id := 10, title := "Checkup", description := ""
    startTime := 1000, endTime := 2000, userId := 1
    status := Status.pending, createdAt := 500, updatedAt := 500 }

/-- An appointment owned by bob. -/
def apptB : AppointmentDoc :=
  { _id := 11, title := "Dentist", description := "teeth"
    startTime := 3000, endTime := 4000, userId := 2
    status := Status.confirmed, createdAt := 600, updatedAt := 600 }

/-- A small database state with three users and two appointments. -/
def db0 : DB :=
  { users := [alice, bob, adminUser], appointments := [apptA, apptB] }

/-- An update input touching only the end time. -/
def updEndOnly : AppointmentUpdateInput :=
  { title := none, description := none, startTime := none
    endTime := some 0, status := none }

/-- A third user, registered on top of db0 by the witnesses. -/
def carol : UserDoc :=
  { _id := 7, email := "carol@example.com"
    passwordHash := bcryptHash "pw"
    name := some "Carol", role := Role.user, createdAt := 800 }

/-- db0 after registering carol. -/
def db1 : DB :=
  { db0 with users := db0.users ++ [carol] }

/-- The user document `Mutation.register` creates for a fresh email. -/
def registeredUser (email password : String) (name : Option String)
    (newId : Id) (now : Time) : UserDoc :=
  { _id := newId, email := email, passwordHash := bcryptHash password
    name := name, role := Role.user, createdAt := now }

/-- The update object `Mutation.updateAppointment` builds from its input at
time `now`. -/
def updateDataOf (input : AppointmentUpdateInput) (now : Time) : UpdateData :=
  { title := input.title, description := input.description
    startTime := input.startTime, endTime := input.endTime
    status := input.status, updatedAt := now }

/-! Helper lemmas. -/

theorem mem_insertBy {α : Type} (le : α → α → Bool) (a x : α) (l : List α) :
    x ∈ insertBy le a l ↔ x = a ∨ x ∈ l := by
  induction l with
  | nil => simp [insertBy]
  | cons b l ih =>
    simp only [insertBy]
    by_cases h : le a b = true
    · rw [if_pos h]
      simp [List.mem_cons]
    · rw [if_neg h]
      simp only [List.mem_cons, ih]
      tauto

theorem mem_sortBy {α : Type} (le : α → α → Bool) (x : α) (l : List α) :
    x ∈ sortBy le l ↔ x ∈ l := by
  induction l with
  | nil => simp [sortBy]
  | cons a l ih => simp [sortBy, mem_insertBy, ih, List.mem_cons]

theorem find?_append_of_none {α : Type} (p : α → Bool) (l l' : List α)
    (h : l.find? p = none) : (l ++ l').find? p = l'.find? p := by
  rw [List.find?_append, h, Option.none_or]

theorem find?_map_update (l : List AppointmentDoc) (id : Id) (a a' : AppointmentDoc)
    (hfind : l.find? (fun b => b._id == id) = some a)
    (hid : a'._id = a._id) :
    (l.map (fun b => if b._id == id then a' else b)).find?
      (fun b => b._id == id) = some a' := by
  induction l with
  | nil => simp at hfind
  | cons b l ih =>
    by_cases hb : (b._id == id) = true
    · have hcons : List.find? (fun c => c._id == id) (b :: l) = some b :=
        List.find?_cons_of_pos _ hb
      rw [hcons] at hfind
      have hab : a = b := (Option.some.inj hfind).symm
      have ha' : (a'._id == id) = true := by
        rw [hid, hab]
        exact hb
      simp only [List.map_cons, if_pos hb]
      exact List.find?_cons_of_pos _ ha'
    · have hcons :
          List.find? (fun c => c._id == id) (b :: l) =
            List.find? (fun c => c._id == id) l :=
        List.find?_cons_of_neg _ hb
      rw [hcons] at hfind
      simp only [List.map_cons, if_neg hb]
      have hstep :
          List.find? (fun c => c._id == id)
              (b :: l.map (fun c => if c._id == id then a' else c)) =
            List.find? (fun c => c._id == id)
              (l.map (fun c => if c._id == id then a' else c)) :=
        List.find?_cons_of_neg _ hb
      rw [hstep]
      exact ih hfind

/-- Characterisation of `updateAppointment` on the authorized path: the
update object built from the input (with `updatedAt := now`) is applied to
the found document and written back. -/
theorem updateAppointment_authorized (db : DB) (u : UserDoc) (id : Id)
    (input : AppointmentUpdateInput) (now : Time) (a : AppointmentDoc)
    (hfound : Appointment.findById db id = some a)
    (hauth : u.role = Role.admin ∨ a.userId = u._id) :
    Mutation.updateAppointment db (some u) id input now =
      (.ok (some (toAppointmentDTO (applyUpdate (updateDataOf input now) a))),
       { db with appointments := db.appointments.map (fun b =>
           if b._id == id then applyUpdate (updateDataOf input now) a else b) }) := by
  have hguard : ¬(u.role ≠ Role.admin ∧ a.userId ≠ u._id) := by
    rcases hauth with h | h
    · intro hc; exact hc.1 h
    · intro hc; exact hc.2 h
  unfold Mutation.updateAppointment Appointment.findByIdAndUpdate Appointment.findById
  unfold Appointment.findById at hfound
  rw [hfound]
  dsimp only
  rw [if_neg hguard]
  rfl

/-- After appending a user whose email is the one searched for to a
database where the search came up empty, `User.findOne` returns that
user. -/
theorem findOne_append_self (db : DB) (nu : UserDoc) (email : String)
    (hfresh : User.findOne db email = none) (hemail : nu.email = email) :
    User.findOne { db with users := db.users ++ [nu] } email = some nu := by
  unfold User.findOne at hfresh ⊢
  dsimp only
  rw [find?_append_of_none _ _ _ hfresh]
  exact List.find?_cons_of_pos _ (by simp [hemail])

/-! Claim theorems. -/

/-- C1: the claim says every persisted appointment satisfies
endTime strictly greater than startTime, with both createAppointment and
updateAppointment rejecting violations before persisting.  The code
violates it on update: the time-range check is a pre-validate document
hook, which the query update of `findByIdAndUpdate` never runs
(`runValidators` covers only per-path validators), so a partial update
that changes only `endTime` persists an appointment with
`endTime <= startTime`.  At the failing input below the owner updates
appointment 10 (startTime 1000, endTime 2000) with `endTime := 0`: the
call succeeds and the stored document ends before it starts. -/
theorem C1_update_persists_invalid_time_range :
    Mutation.updateAppointment db0 (some alice) 10 updEndOnly 600 =
      (.ok (some (toAppointmentDTO { apptA with endTime := 0, updatedAt := 600 })),
       { db0 with appointments := [{ apptA with endTime := 0, updatedAt := 600 }, apptB] })
    ∧ Appointment.findById
        (Mutation.updateAppointment db0 (some alice) 10 updEndOnly 600).2 10 =
        some { apptA with endTime := 0, updatedAt := 600 }
    ∧ ({ apptA with endTime := 0, updatedAt := 600 } : AppointmentDoc).endTime ≤
        ({ apptA with endTime := 0, updatedAt := 600 } : AppointmentDoc).startTime :=
  ⟨rfl, rfl, by decide⟩

/-- C2 counterexample: the claim includes the users query among the
operations that fail with AuthenticationRequired on a null user context,
but that resolver takes no context and performs no check: with a null
user it succeeds and returns every stored user. -/
theorem C2_users_ignores_null_context :
    Query.users db0 none = .ok [toUserDTO bob, toUserDTO alice, toUserDTO adminUser]
    ∧ Query.users db0 none ≠ .error .authenticationRequired :=
  ⟨rfl, fun h => Except.noConfusion h⟩

/-- C2 amended: appointments, appointment(id), myAppointments,
createAppointment, updateAppointment and deleteAppointment each fail with
AuthenticationRequired on a null user context, before any database write
(the mutations return the database unchanged); the users query performs no
authentication check and returns all stored users even with a null
context. -/
theorem C2_null_context_protection :
    (∀ db, Query.appointments db none = .error .authenticationRequired)
    ∧ (∀ db id, Query.appointment db none id = .error .authenticationRequired)
    ∧ (∀ db, Query.myAppointments db none = .error .authenticationRequired)
    ∧ (∀ db input newId now,
        Mutation.createAppointment db none input newId now =
          (.error .authenticationRequired, db))
    ∧ (∀ db id input now,
        Mutation.updateAppointment db none id input now =
          (.error .authenticationRequired, db))
    ∧ (∀ db id,
        Mutation.deleteAppointment db none id = (.error .authenticationRequired, db))
    ∧ (∀ db, Query.users db none =
        .ok ((sortBy (fun a b : UserDoc => b.createdAt ≤ a.createdAt) db.users).map toUserDTO)) :=
  ⟨fun _ => rfl, fun _ _ => rfl, fun _ => rfl, fun _ _ _ _ => rfl,
   fun _ _ _ _ => rfl, fun _ _ => rfl, fun _ => rfl⟩

/-- C5: for any authenticated caller and any input whose endTime is less
than or equal to its startTime, createAppointment fails with
InvalidTimeRange and the database is unchanged (the pre-validate hook of
the Appointment schema rejects the document before it is appended). -/
theorem C5_create_rejects_invalid_time_range (db : DB) (u : UserDoc)
    (input : AppointmentInput) (newId : Id) (now : Time)
    (h : input.endTime ≤ input.startTime) :
    Mutation.createAppointment db (some u) input newId now =
      (.error .invalidTimeRange, db) := by
  unfold Mutation.createAppointment Appointment.create appointmentPreValidate
  dsimp only
  rw [if_pos h]

/-- C5 witness: creating an appointment whose start and end coincide
fails with InvalidTimeRange and leaves db0 unchanged. -/
theorem C5_witness :
    ((5 : Time) ≤ (5 : Time))
    ∧ Mutation.createAppointment db0 (some alice)
        { title := "X", description := none, startTime := 5, endTime := 5,
          status := none } 99 700 = (.error .invalidTimeRange, db0) :=
  ⟨by decide,
   C5_create_rejects_invalid_time_range db0 alice
     { title := "X", description := none, startTime := 5, endTime := 5,
       status := none } 99 700 (by decide)⟩

/-- C3: for every authenticated caller, the appointments query succeeds;
with admin role the result contains exactly the DTOs of all stored
appointments, otherwise exactly those of the appointments whose userId is
the caller id — so a non-admin caller never receives a DTO whose userId
differs from their own id. -/
theorem C3_appointments_visibility (db : DB) (u : UserDoc) :
    ∃ l, Query.appointments db (some u) = .ok l
      ∧ (u.role = Role.admin →
          ∀ d, d ∈ l ↔ ∃ a ∈ db.appointments, d = toAppointmentDTO a)
      ∧ (u.role ≠ Role.admin →
          ∀ d, d ∈ l ↔ ∃ a ∈ db.appointments, a.userId = u._id ∧ d = toAppointmentDTO a)
      ∧ (u.role ≠ Role.admin → ∀ d ∈ l, d.userId = toString u._id) := by
  by_cases hrole : u.role = Role.admin
  · refine ⟨(sortBy (fun a b : AppointmentDoc => a.startTime ≤ b.startTime)
        (db.appointments.filter (fun _ => true))).map toAppointmentDTO,
      ?_, ?_, ?_, ?_⟩
    · unfold Query.appointments
      dsimp only
      rw [if_pos hrole]
    · intro _ d
      simp only [List.mem_map, mem_sortBy, List.mem_filter, and_true]
      constructor
      · rintro ⟨a, hmem, rfl⟩
        exact ⟨a, hmem, rfl⟩
      · rintro ⟨a, hmem, rfl⟩
        exact ⟨a, hmem, rfl⟩
    · intro h
      exact absurd hrole h
    · intro h
      exact absurd hrole h
  · refine ⟨(sortBy (fun a b : AppointmentDoc => a.startTime ≤ b.startTime)
        (db.appointments.filter (fun a => a.userId == u._id))).map toAppointmentDTO,
      ?_, ?_, ?_, ?_⟩
    · unfold Query.appointments
      dsimp only
      rw [if_neg hrole]
    · intro h
      exact absurd h hrole
    · intro _ d
      simp only [List.mem_map, mem_sortBy, List.mem_filter, beq_iff_eq]
      constructor
      · rintro ⟨a, ⟨hmem, huid⟩, rfl⟩
        exact ⟨a, hmem, huid, rfl⟩
      · rintro ⟨a, hmem, huid, rfl⟩
        exact ⟨a, ⟨hmem, huid⟩, rfl⟩
    · intro _ d hd
      simp only [List.mem_map, mem_sortBy, List.mem_filter, beq_iff_eq] at hd
      obtain ⟨a, ⟨hmem, huid⟩, rfl⟩ := hd
      show toString a.userId = toString u._id
      rw [huid]

/-- C3 witness: the theorem instantiated at db0 with the non-admin caller
alice. -/
theorem C3_witness :
    ∃ l, Query.appointments db0 (some alice) = .ok l
      ∧ (alice.role = Role.admin →
          ∀ d, d ∈ l ↔ ∃ a ∈ db0.appointments, d = toAppointmentDTO a)
      ∧ (alice.role ≠ Role.admin →
          ∀ d, d ∈ l ↔ ∃ a ∈ db0.appointments, a.userId = alice._id ∧ d = toAppointmentDTO a)
      ∧ (alice.role ≠ Role.admin → ∀ d ∈ l, d.userId = toString alice._id) :=
  C3_appointments_visibility db0 alice

/-- C4: appointment(id), updateAppointment and deleteAppointment each fail
with NotFound when no appointment has the id, and with AccessDenied (with
the database unchanged) when the caller is neither the owner nor admin; an
admin caller succeeds on any existing id regardless of owner. -/
theorem C4_not_found_access_denied_admin (db : DB) (u : UserDoc) (id : Id)
    (input : AppointmentUpdateInput) (now : Time) :
    (Appointment.findById db id = none →
      Query.appointment db (some u) id = .error .notFound
      ∧ Mutation.updateAppointment db (some u) id input now = (.error .notFound, db)
      ∧ Mutation.deleteAppointment db (some u) id = (.error .notFound, db))
    ∧ (∀ a, Appointment.findById db id = some a →
        (u.role ≠ Role.admin → a.userId ≠ u._id →
          Query.appointment db (some u) id = .error .accessDenied
          ∧ Mutation.updateAppointment db (some u) id input now =
              (.error .accessDenied, db)
          ∧ Mutation.deleteAppointment db (some u) id = (.error .accessDenied, db))
        ∧ (u.role = Role.admin →
          Query.appointment db (some u) id = .ok (toAppointmentDTO a)
          ∧ (Mutation.updateAppointment db (some u) id input now).1 =
              .ok (some (toAppointmentDTO (applyUpdate (updateDataOf input now) a)))
          ∧ (Mutation.deleteAppointment db (some u) id).1 = .ok true)) := by
  constructor
  · intro hnone
    refine ⟨?_, ?_, ?_⟩
    · unfold Query.appointment
      dsimp only
      rw [hnone]
    · unfold Mutation.updateAppointment
      dsimp only
      rw [hnone]
    · unfold Mutation.deleteAppointment
      dsimp only
      rw [hnone]
  · intro a hsome
    constructor
    · intro hrole huid
      have hguard : u.role ≠ Role.admin ∧ a.userId ≠ u._id := ⟨hrole, huid⟩
      refine ⟨?_, ?_, ?_⟩
      · unfold Query.appointment
        dsimp only
        rw [hsome]
        dsimp only
        rw [if_pos hguard]
      · unfold Mutation.updateAppointment
        dsimp only
        rw [hsome]
        dsimp only
        rw [if_pos hguard]
      · unfold Mutation.deleteAppointment
        dsimp only
        rw [hsome]
        dsimp only
        rw [if_pos hguard]
    · intro hadmin
      have hguard : ¬(u.role ≠ Role.admin ∧ a.userId ≠ u._id) := fun hc => hc.1 hadmin
      refine ⟨?_, ?_, ?_⟩
      · unfold Query.appointment
        dsimp only
        rw [hsome]
        dsimp only
        rw [if_neg hguard]
      · rw [updateAppointment_authorized db u id input now a hsome (Or.inl hadmin)]
      · unfold Mutation.deleteAppointment
        dsimp only
        rw [hsome]
        dsimp only
        rw [if_neg hguard]

/-- C4 witness: the theorem instantiated at db0 with the regular user
alice and appointment 11, which bob owns; the hypotheses of the inner
implications are discharged at the access-denied branch. -/
theorem C4_witness :
    Query.appointment db0 (some alice) 11 = .error .accessDenied
    ∧ Mutation.updateAppointment db0 (some alice) 11 updEndOnly 900 =
        (.error .accessDenied, db0)
    ∧ Mutation.deleteAppointment db0 (some alice) 11 = (.error .accessDenied, db0) :=
  ((C4_not_found_access_denied_admin db0 alice 11 updEndOnly 900).2 apptB rfl).1
    (by decide) (by decide)

/-- C6: for every email not already registered and any password, register
succeeds, and a subsequent login with the same email and password succeeds
and returns a signed token whose subject is the id of the user register
created. -/
theorem C6_register_then_login (db : DB) (email password : String)
    (name : Option String) (newId : Id) (now : Time)
    (hfresh : User.findOne db email = none) :
    ∃ pay db2, Mutation.register db email password name newId now = (.ok pay, db2)
      ∧ pay.token.sub = toString newId
      ∧ pay.user.id = toString newId
      ∧ ∃ pay2, Mutation.login db2 email password = .ok pay2
          ∧ pay2.token.sub = toString newId := by
  have hreg : Mutation.register db email password name newId now =
      (.ok { token := jwtSign (toString newId)
             user := toUserDTO (registeredUser email password name newId now) },
       { db with users := db.users ++ [registeredUser email password name newId now] }) := by
    unfold Mutation.register registeredUser
    rw [hfresh]
  have hfind2 := findOne_append_self db (registeredUser email password name newId now)
    email hfresh rfl
  have hlogin : Mutation.login
      { db with users := db.users ++ [registeredUser email password name newId now] }
      email password =
      .ok { token := jwtSign (toString newId)
            user := toUserDTO (registeredUser email password name newId now) } := by
    unfold Mutation.login
    rw [hfind2]
    dsimp only
    have hcmp : bcryptCompare password
        (registeredUser email password name newId now).passwordHash = true := by
      simp [bcryptCompare, registeredUser]
    rw [if_pos hcmp]
    rfl
  exact ⟨_, _, hreg, rfl, rfl, _, hlogin, rfl⟩

/-- C6 witness: registering carol on db0 and logging in with the same
credentials yields tokens whose subject is the new id 7. -/
theorem C6_witness :
    ∃ pay db2, Mutation.register db0 "carol@example.com" "pw" (some "Carol") 7 800 =
        (.ok pay, db2)
      ∧ pay.token.sub = toString (7 : Id)
      ∧ pay.user.id = toString (7 : Id)
      ∧ ∃ pay2, Mutation.login db2 "carol@example.com" "pw" = .ok pay2
          ∧ pay2.token.sub = toString (7 : Id) :=
  C6_register_then_login db0 "carol@example.com" "pw" (some "Carol") 7 800 (by decide)

/-- C7: updateAppointment performs a partial-field update — each of title,
description, startTime, endTime and status is overwritten exactly when
supplied and keeps its stored value otherwise — and sets updatedAt to now
on every successful update. -/
theorem C7_partial_update (db : DB) (u : UserDoc) (id : Id)
    (input : AppointmentUpdateInput) (now : Time) (a : AppointmentDoc)
    (hfound : Appointment.findById db id = some a)
    (hauth : u.role = Role.admin ∨ a.userId = u._id) :
    ∃ db2 a2, Mutation.updateAppointment db (some u) id input now =
        (.ok (some (toAppointmentDTO a2)), db2)
      ∧ Appointment.findById db2 id = some a2
      ∧ a2.title = input.title.getD a.title
      ∧ a2.description = input.description.getD a.description
      ∧ a2.startTime = input.startTime.getD a.startTime
      ∧ a2.endTime = input.endTime.getD a.endTime
      ∧ a2.status = input.status.getD a.status
      ∧ a2.updatedAt = now := by
  refine ⟨_, applyUpdate (updateDataOf input now) a,
    updateAppointment_authorized db u id input now a hfound hauth,
    ?_, rfl, rfl, rfl, rfl, rfl, rfl⟩
  unfold Appointment.findById at hfound ⊢
  dsimp only
  exact find?_map_update db.appointments id a _ hfound rfl

/-- C7 witness: the owner alice updates appointment 10 supplying only the
end time; the stored document keeps every unsupplied field and gets
updatedAt 600. -/
theorem C7_witness :
    ∃ db2 a2, Mutation.updateAppointment db0 (some alice) 10 updEndOnly 600 =
        (.ok (some (toAppointmentDTO a2)), db2)
      ∧ Appointment.findById db2 10 = some a2
      ∧ a2.title = updEndOnly.title.getD apptA.title
      ∧ a2.description = updEndOnly.description.getD apptA.description
      ∧ a2.startTime = updEndOnly.startTime.getD apptA.startTime
      ∧ a2.endTime = updEndOnly.endTime.getD apptA.endTime
      ∧ a2.status = updEndOnly.status.getD apptA.status
      ∧ a2.updatedAt = 600 :=
  C7_partial_update db0 alice 10 updEndOnly 600 apptA rfl (Or.inr rfl)

/-- C8: a second register with the email of an already-successful register
fails with DuplicateEmail and returns the database of the first register
unchanged — no user is created and the first stored record stays as it
was. -/
theorem C8_duplicate_register (db : DB) (email p1 p2 : String)
    (n1 n2 : Option String) (id1 id2 : Id) (t1 t2 : Time)
    (pay : AuthPayload) (db2 : DB)
    (hfirst : Mutation.register db email p1 n1 id1 t1 = (.ok pay, db2)) :
    Mutation.register db2 email p2 n2 id2 t2 = (.error .duplicateEmail, db2) := by
  unfold Mutation.register at hfirst ⊢
  cases hfind : User.findOne db email with
  | some u0 =>
    rw [hfind] at hfirst
    dsimp only at hfirst
    injection hfirst with h1 h2
    exact Except.noConfusion h1
  | none =>
    rw [hfind] at hfirst
    dsimp only at hfirst
    injection hfirst with h1 h2
    subst h2
    rw [findOne_append_self db _ email hfind rfl]

/-- C8 witness: registering carol a second time on db1 (db0 after the
first successful registration) fails with DuplicateEmail and leaves db1
unchanged. -/
theorem C8_witness :
    Mutation.register db1 "carol@example.com" "pw2" none 8 900 =
      (.error .duplicateEmail, db1) :=
  C8_duplicate_register db0 "carol@example.com" "pw" "pw2" (some "Carol") none 7 8 800 900
    { token := jwtSign "7", user := toUserDTO carol } db1 rfl

/-- C9: no operation returning user data ever includes the password hash:
toUserDTO ignores the passwordHash field (two documents differing only
there map to the same DTO, whose type has exactly id, email, name, role
and createdAt), and me, users, register and login all return DTOs obtained
through toUserDTO. -/
theorem C9_user_dto_excludes_password_hash :
    (∀ (u : UserDoc) (h : String), toUserDTO { u with passwordHash := h } = toUserDTO u)
    ∧ (∀ db user, Query.me db user = user.map toUserDTO)
    ∧ (∀ db user, Query.users db user =
        .ok ((sortBy (fun a b : UserDoc => b.createdAt ≤ a.createdAt) db.users).map toUserDTO))
    ∧ (∀ db email password name newId now pay db2,
        Mutation.register db email password name newId now = (.ok pay, db2) →
        ∃ u ∈ db2.users, pay.user = toUserDTO u)
    ∧ (∀ db email password pay,
        Mutation.login db email password = .ok pay →
        ∃ u ∈ db.users, pay.user = toUserDTO u) := by
  refine ⟨fun u h => rfl, fun db user => ?_, fun db user => rfl, ?_, ?_⟩
  · cases user <;> rfl
  · intro db email password name newId now pay db2 hreg
    unfold Mutation.register at hreg
    cases hfind : User.findOne db email with
    | some u0 =>
      rw [hfind] at hreg
      dsimp only at hreg
      injection hreg with h1 h2
      exact Except.noConfusion h1
    | none =>
      rw [hfind] at hreg
      dsimp only at hreg
      injection hreg with h1 h2
      injection h1 with h1
      subst h2
      exact ⟨_, List.mem_append_right _ (List.mem_singleton_self _), by rw [← h1]⟩
  · intro db email password pay hlog
    unfold Mutation.login at hlog
    cases hfind : User.findOne db email with
    | none =>
      rw [hfind] at hlog
      exact Except.noConfusion hlog
    | some u0 =>
      rw [hfind] at hlog
      dsimp only at hlog
      by_cases hcmp : bcryptCompare password u0.passwordHash = true
      · rw [if_pos hcmp] at hlog
        injection hlog with h1
        have hmem : u0 ∈ db.users := by
          unfold User.findOne at hfind
          exact List.mem_of_find?_eq_some hfind
        exact ⟨u0, hmem, by rw [← h1]⟩
      · rw [if_neg hcmp] at hlog
        exact Except.noConfusion hlog

/-- C10: a successful updateAppointment never changes the appointment's
userId or createdAt: the stored document after the update has the same
owner and creation timestamp as before. -/
theorem C10_update_preserves_owner_and_createdAt (db : DB) (u : UserDoc) (id : Id)
    (input : AppointmentUpdateInput) (now : Time) (a : AppointmentDoc)
    (res : Except Err (Option AppointmentDTO)) (db2 : DB)
    (hfound : Appointment.findById db id = some a)
    (hrun : Mutation.updateAppointment db (some u) id input now = (res, db2))
    (hok : ∃ v, res = Except.ok v) :
    ∃ a2, Appointment.findById db2 id = some a2
      ∧ a2.userId = a.userId ∧ a2.createdAt = a.createdAt := by
  by_cases hguard : u.role ≠ Role.admin ∧ a.userId ≠ u._id
  · have hden : Mutation.updateAppointment db (some u) id input now =
        (.error .accessDenied, db) := by
      unfold Mutation.updateAppointment
      dsimp only
      rw [hfound]
      dsimp only
      rw [if_pos hguard]
    rw [hden] at hrun
    injection hrun with h1 h2
    obtain ⟨v, hv⟩ := hok
    rw [← h1] at hv
    exact Except.noConfusion hv
  · have hauth : u.role = Role.admin ∨ a.userId = u._id := by
      rcases not_and_or.mp hguard with h | h
      · exact Or.inl (not_not.mp h)
      · exact Or.inr (not_not.mp h)
    rw [updateAppointment_authorized db u id input now a hfound hauth] at hrun
    injection hrun with h1 h2
    subst h2
    refine ⟨applyUpdate (updateDataOf input now) a, ?_, rfl, rfl⟩
    unfold Appointment.findById at hfound ⊢
    dsimp only
    exact find?_map_update db.appointments id a _ hfound rfl

/-- C10 witness: after alice's successful end-time update of appointment
10, the stored document keeps owner 1 and creation time 500. -/
theorem C10_witness :
    ∃ a2, Appointment.findById
        { db0 with appointments := [{ apptA with endTime := 0, updatedAt := 600 }, apptB] }
        10 = some a2
      ∧ a2.userId = apptA.userId ∧ a2.createdAt = apptA.createdAt :=
  C10_update_preserves_owner_and_createdAt db0 alice 10 updEndOnly 600 apptA
    (.ok (some (toAppointmentDTO { apptA with endTime := 0, updatedAt := 600 })))
    { db0 with appointments := [{ apptA with endTime := 0, updatedAt := 600 }, apptB] }
    rfl rfl ⟨_, rfl⟩

end Veola
